import Mathlib

/-!
Shallow embedding of `optimum/graphcore/models/convnext/modeling_convnext.py`
(the single source file of this repository), together with proofs about it.

The file models, faithfully to the Python source:
* the checkpoint translator `load_weights_from_fb_model` (lines 35-51),
* the `SerializedLinear` layer (lines 53-80),
* the replaced ConvNext block constructor `replace_block_init` (lines 82-97),
* the pipeline device allocation `ConvNextPipelineMixin.parallelize`
  (lines 99-120) and the head placement in
  `PipelinedConvNextForImageClassification.parallelize` (lines 136-144),
* the loss-selection logic of
  `PipelinedConvNextForImageClassification.forward` (lines 146-196),
* the patched `extend_hf_convnext_init` (lines 21-33).

Python dictionaries are modelled as ordered association lists, tensors as an
arbitrary type `α` (only their identity matters to this glue code), and an
exception that escapes a function as an `Except.error` carrying the Python
error message.
-/

/-- Torch dtypes that can appear on a `labels` tensor.  Only the distinction
between the integer dtypes `torch.long` / `torch.int` and everything else is
observable in the source (line 166). -/
inductive DType
  | long
  | int
  | float32
  | float16
deriving DecidableEq

/-- Configuration attributes read anywhere in the source file.  `ipu_config`
fields (`layers_per_ipu`, `ipus_per_replica`) are included alongside the model
config fields; `other` stands for every configuration field the module never
reads.  Attributes guarded by `hasattr` in the source (`head_init_scale`,
`pretrained_weights_path`, `smoothing`) are `Option`s, `none` meaning the
attribute is absent. -/
structure Config where
  num_labels : Nat
  head_init_scale : Option ℚ
  pretrained_weights_path : Option String
  layers_per_ipu : List Nat
  ipus_per_replica : Nat
  problem_type : Option String
  smoothing : Option ℚ
  layer_scale_init_value : ℚ
  hidden_act : String
  use_return_dict : Bool
  other : Nat
deriving DecidableEq

/-- Symbolic description of the loss value built by `forward` (lines 173-187):
which standard library loss function is applied, and to what shape of
arguments. -/
inductive LossExpr
  /-- `MSELoss()`; `squeezed = true` means it is applied to
  `logits.squeeze(), labels.squeeze()` (the `num_labels == 1` case, line 176),
  otherwise to `logits, labels` (line 178). -/
  | mseLoss (squeezed : Bool)
  /-- `CrossEntropyLoss(label_smoothing=smoothing)` applied to
  `logits.view(-1, num_labels), labels.view(-1)` (lines 180-183). -/
  | crossEntropyLoss (smoothing : ℚ)
  /-- `SoftTargetCrossEntropy()` applied to `logits, labels`, wrapped in
  `poptorch.identity_loss(loss, 'none')` (lines 185-187). -/
  | softTargetCE
deriving DecidableEq

/-- Truthiness of the guard `if self.eval:` at line 181 of the source.  There
`self.eval` is the bound method `torch.nn.Module.eval` (the attribute is never
shadowed), and in Python a bound method object is always truthy, so the guard
always takes the then-branch. -/
def selfEvalIsTruthy : Bool := true

/-- Loss selection of `PipelinedConvNextForImageClassification.forward`,
lines 157-187.  `labels` carries only the dtype, the single attribute of the
labels tensor the selection reads.  Returns the chosen loss (or `none` when
no branch applies or labels are absent) together with the configuration after
the call, since line 165/168/171 assigns `self.config.problem_type`. -/
def forwardLoss (cfg : Config) (labels : Option DType) : Option LossExpr × Config :=
  -- lines 157-159: smoothing = 0.0; if hasattr(self.config, "smoothing"): ...
  let smoothing : ℚ := match cfg.smoothing with
    | some s => s
    | none => 0
  match labels with
  | none => (none, cfg)  -- line 162: `if labels is not None`
  | some labels_dtype =>
    -- lines 163-171: infer and cache problem_type when it is None
    let cfg :=
      match cfg.problem_type with
      | none =>
        if cfg.num_labels = 1 then
          { cfg with problem_type := some "regression" }
        else if 1 < cfg.num_labels ∧ (labels_dtype = DType.long ∨ labels_dtype = DType.int) then
          { cfg with problem_type := some "single_label_classification" }
        else
          { cfg with problem_type := some "multi_label_classification" }
      | some _ => cfg
    -- lines 173-187: branch on problem_type
    let loss : Option LossExpr :=
      if cfg.problem_type = some "regression" then
        some (LossExpr.mseLoss (decide (cfg.num_labels = 1)))
      else if cfg.problem_type = some "single_label_classification" then
        -- line 180: loss_fct = CrossEntropyLoss(label_smoothing=smoothing)
        -- lines 181-182: if self.eval: loss_fct = CrossEntropyLoss()
        some (LossExpr.crossEntropyLoss (if selfEvalIsTruthy then 0 else smoothing))
      else if cfg.problem_type = some "multi_label_classification" then
        some LossExpr.softTargetCE
      else
        none
    (loss, cfg)

/-- The problem-type inference of lines 163-171, as the pure function of
`num_labels` and the labels dtype that it is. -/
def inferProblemType (num_labels : Nat) (labels_dtype : DType) : String :=
  if num_labels = 1 then "regression"
  else if 1 < num_labels ∧ (labels_dtype = DType.long ∨ labels_dtype = DType.int) then
    "single_label_classification"
  else "multi_label_classification"

/-- Resolution of the `return_dict` argument at line 149 of `forward`:
`return_dict = return_dict if return_dict is not None else
self.config.use_return_dict`. -/
def resolveReturnDict (cfg : Config) (return_dict : Option Bool) : Bool :=
  match return_dict with
  | some b => b
  | none => cfg.use_return_dict

/-! ### Pipeline device allocation (lines 99-144) -/

/-- Helper for `get_layer_ipu`, mirroring its `for ipu, n_layers in
enumerate(layers_per_ipu)` loop with the running `ipu` counter made explicit:
`layer_ipu += [ipu] * n_layers`. -/
def get_layer_ipu_from (ipu : Nat) : List Nat → List Nat
  | [] => []
  | n_layers :: rest => List.replicate n_layers ipu ++ get_layer_ipu_from (ipu + 1) rest

/-- Modelled from the spec: `get_layer_ipu` is imported from
`...modeling_utils`, which is not part of this excerpt.  The spec describes the
result as "a precomputed per-unit layer count table" expanded so that the k-th
layer overall reads its unit index at position k: unit index `i` is repeated
`layers_per_ipu[i]` times, in order. -/
def get_layer_ipu (layers_per_ipu : List Nat) : List Nat :=
  get_layer_ipu_from 0 layers_per_ipu

/-- The inner loop of `ConvNextPipelineMixin.parallelize` (lines 113-118) over
the layers of one stage: each layer is tagged (`poptorch.BeginBlock`) with
`encoder_layer_ipu[global_layer_idx]`, and `global_layer_idx` is incremented by
one per layer.  A `global_layer_idx` outside the table raises `IndexError`,
which this module does not catch, so the loop returns `Except`.  The logging
block name passed to `BeginBlock` is omitted. -/
def assignLayers (encoder_layer_ipu : List Nat) :
    List α → Nat → Except String (List (α × Nat) × Nat)
  | [], global_layer_idx => .ok ([], global_layer_idx)
  | layer :: rest, global_layer_idx =>
    match encoder_layer_ipu[global_layer_idx]? with
    | none => .error "IndexError: list index out of range"
    | some ipu_id =>
      match assignLayers encoder_layer_ipu rest (global_layer_idx + 1) with
      | .error e => .error e
      | .ok (tagged, final_idx) => .ok ((layer, ipu_id) :: tagged, final_idx)

/-- The outer loop of `ConvNextPipelineMixin.parallelize` (lines 112-118) over
`self.convnext.encoder.stages`, threading `global_layer_idx` through the
stages. -/
def assignStages (encoder_layer_ipu : List Nat) :
    List (List α) → Nat → Except String (List (α × Nat) × Nat)
  | [], global_layer_idx => .ok ([], global_layer_idx)
  | stage :: stages, global_layer_idx =>
    match assignLayers encoder_layer_ipu stage global_layer_idx with
    | .error e => .error e
    | .ok (tagged₁, idx₁) =>
      match assignStages encoder_layer_ipu stages idx₁ with
      | .error e => .error e
      | .ok (tagged₂, idx₂) => .ok (tagged₁ ++ tagged₂, idx₂)

/-- `ConvNextPipelineMixin.parallelize` (lines 100-120): the embeddings go to
IPU 0 (line 106) and every encoder layer, walked stage by stage and layer by
layer, is tagged from `get_layer_ipu(self.ipu_config.layers_per_ipu)`
starting at `global_layer_idx = 0` (lines 110-118).  Returns the embeddings
device and the tagged encoder layers. -/
def ConvNextPipelineMixin.parallelize (layers_per_ipu : List Nat)
    (stages : List (List α)) : Except String (Nat × List (α × Nat)) :=
  let encoder_layer_ipu := get_layer_ipu layers_per_ipu
  match assignStages encoder_layer_ipu stages 0 with
  | .error e => .error e
  | .ok (tagged, _) => .ok (0, tagged)

/-- Result of `PipelinedConvNextForImageClassification.parallelize`: device
indices chosen for the embeddings, each encoder layer, the final layernorm and
the classifier.  The head indices are `Int` because Python computes
`ipus_per_replica - 1` in unbounded signed arithmetic. -/
structure PipelineAllocation (α : Type) where
  embeddings_ipu : Nat
  encoder : List (α × Nat)
  layernorm_ipu : Int
  classifier_ipu : Int
deriving DecidableEq

/-- `PipelinedConvNextForImageClassification.parallelize` (lines 136-144):
runs the mixin's `parallelize`, then puts the head (layernorm and classifier)
on `last_ipu = self.ipu_config.ipus_per_replica - 1`. -/
def PipelinedConvNextForImageClassification.parallelize (cfg : Config)
    (stages : List (List α)) : Except String (PipelineAllocation α) :=
  match ConvNextPipelineMixin.parallelize cfg.layers_per_ipu stages with
  | .error e => .error e
  | .ok (embeddings_ipu, encoder) =>
    let last_ipu : Int := (cfg.ipus_per_replica : Int) - 1
    .ok ⟨embeddings_ipu, encoder, last_ipu, last_ipu⟩

/-! ### The checkpoint translator (lines 35-51) -/

/-- Does `pat` occur at the start of `l`? Structural helper for the substring
test. -/
def listStartsWith : List Char → List Char → Bool
  | _, [] => true
  | [], _ :: _ => false
  | c :: cs, p :: ps => c == p && listStartsWith cs ps

/-- Does `pat` occur anywhere in `l`? -/
def listOccurs : List Char → List Char → Bool
  | [], pat => pat.isEmpty
  | c :: cs, pat => listStartsWith (c :: cs) pat || listOccurs cs pat

/-- Python's `"head" in fb_tensor_name` substring test (line 44). -/
def strContains (s pat : String) : Bool := listOccurs s.data pat.data

/-- Indexing a Python dict whose keys are strings with a key that is either a
string (`some s`) or `None` (`none`).  `None` equals no string key, so
indexing with it raises `KeyError: None`; a missing string key raises
`KeyError` as well. -/
def pyLookup (d : List (String × α)) (k : Option String) : Except String α :=
  match k with
  | none => .error "KeyError: None"
  | some s =>
    match d.find? (fun p => p.1 == s) with
    | some p => .ok p.2
    | none => .error ("KeyError: " ++ s)

/-- Python dict assignment `d[k] = v` on an ordered association list: an
existing binding of `k` is overwritten in place, a new key is appended. -/
def dictSet (d : List (Option String × α)) (k : Option String) (v : α) :
    List (Option String × α) :=
  if d.any (fun p => p.1 == k) then
    d.map (fun p => if p.1 == k then (k, v) else p)
  else
    d ++ [(k, v)]

/-- The `for fb_tensor_name in fb_state_dict.keys():` loop of
`load_weights_from_fb_model` (lines 41-49), iterating over the remaining
entries of `fb_state_dict` (dict keys are unique, so the entry's value is
`fb_state_dict[fb_tensor_name]`) and accumulating `new_state_dict`.  The else
branch indexes `current_state_dict` with `hf_tensor_name` — which is `None`
when `fb_to_hf_name` found no mapping. -/
def load_weights_loop (fb_to_hf_name : String → Option String) (load_classifier : Bool)
    (current_state_dict : List (String × α)) :
    List (String × α) → List (Option String × α) →
    Except String (List (Option String × α))
  | [], new_state_dict => .ok new_state_dict
  | (fb_tensor_name, v) :: rest, new_state_dict =>
    let hf_tensor_name := fb_to_hf_name fb_tensor_name
    if hf_tensor_name.isSome && (!strContains fb_tensor_name "head" || load_classifier) then
      load_weights_loop fb_to_hf_name load_classifier current_state_dict rest
        (dictSet new_state_dict hf_tensor_name v)
    else
      match pyLookup current_state_dict hf_tensor_name with
      | .error e => .error e
      | .ok cur => load_weights_loop fb_to_hf_name load_classifier current_state_dict rest
          (dictSet new_state_dict hf_tensor_name cur)

/-- `load_weights_from_fb_model` (lines 35-51).  `fb_state_dict` stands for
`torch.load(fb_model_path)["model"]` and `current_state_dict` for
`model.state_dict()`; `fb_to_hf_name` (imported from `fb_to_hf_map_util`,
not part of this excerpt) is taken as a parameter, `none` modelling a key for
which it finds no mapping.  The result is the `new_state_dict` handed to
`model.load_state_dict`, or the uncaught Python exception. -/
def load_weights_from_fb_model (fb_to_hf_name : String → Option String)
    (load_classifier : Bool) (fb_state_dict current_state_dict : List (String × α)) :
    Except String (List (Option String × α)) :=
  load_weights_loop fb_to_hf_name load_classifier current_state_dict fb_state_dict []

/-! ### SerializedLinear (lines 53-80) -/

/-- The `poptorch.MatMulSerializationMode` values this module uses. -/
inductive MatMulSerializationMode
  | ReducingDim
  | Disabled
deriving DecidableEq

/-- The extra state `SerializedLinear.__init__` (lines 54-77) adds on top of
`nn.Linear`: the layer dimensions and the serialization mode chosen from
them. -/
structure SerializedLinearState where
  in_features : Nat
  out_features : Nat
  ser_mode : MatMulSerializationMode
deriving DecidableEq

/-- `SerializedLinear.__init__` (lines 54-77): `ser_mode` is `ReducingDim`
when `in_features > 2000 or out_features > 2000` (line 74) and `Disabled`
otherwise. -/
def SerializedLinear.init (in_features out_features : Nat) : SerializedLinearState :=
  if 2000 < in_features ∨ 2000 < out_features then
    ⟨in_features, out_features, MatMulSerializationMode.ReducingDim⟩
  else
    ⟨in_features, out_features, MatMulSerializationMode.Disabled⟩

/-- Modelled from the spec: `poptorch.serializedMatMul` belongs to the
accelerator library, outside this repository.  It splits a matrix
multiplication into `factor` chunks for memory reasons; the serialization
`mode` and `factor` affect only how the product is scheduled, so its value is
the ordinary matrix product. -/
def serializedMatMul (a : Matrix (Fin m) (Fin k) ℚ) (b : Matrix (Fin k) (Fin n) ℚ)
    (_mode : MatMulSerializationMode) (_factor : Nat) : Matrix (Fin m) (Fin n) ℚ :=
  a * b

/-- `SerializedLinear.forward` (lines 79-80):
`poptorch.serializedMatMul(input, self.weight.t(), mode=self.ser_mode,
factor=2) + self.bias`, with the bias broadcast across rows.  The weight has
shape `(out_features, in_features)` as in `nn.Linear`. -/
def SerializedLinear.forward (st : SerializedLinearState)
    (weight : Matrix (Fin o) (Fin i) ℚ) (bias : Fin o → ℚ)
    (input : Matrix (Fin m) (Fin i) ℚ) : Matrix (Fin m) (Fin o) ℚ :=
  Matrix.of fun r c => serializedMatMul input weight.transpose st.ser_mode 2 r c + bias c

/-- The standard linear layer, in the words of the claim: the input
matrix-multiplied by the transposed weight, plus the bias — i.e.
`y[r][c] = sum_k input[r][k] * weight[c][k] + bias[c]`, the mathematical
function `torch.nn.Linear` computes. -/
def linearLayerSpec (weight : Matrix (Fin o) (Fin i) ℚ) (bias : Fin o → ℚ)
    (input : Matrix (Fin m) (Fin i) ℚ) : Matrix (Fin m) (Fin o) ℚ :=
  Matrix.of fun r c => (∑ k, input r k * weight c k) + bias c

/-! ### Block constructor and patched model constructor (lines 21-33, 82-97) -/

/-- The state `replace_block_init` (lines 82-95) gives a `ConvNextLayer`:
submodule hyperparameters, the activation chosen from the config, and the
optional layer-scale parameter. -/
structure ConvNextLayerState where
  dwconv_channels : Nat
  dwconv_kernel_size : Nat
  dwconv_padding : Nat
  dwconv_groups : Nat
  layernorm_dim : Nat
  layernorm_eps : ℚ
  pwconv1 : SerializedLinearState
  act : String
  pwconv2 : SerializedLinearState
  layer_scale_parameter : Option ℚ
  drop_path_is_identity : Bool
deriving DecidableEq

/-- `replace_block_init` (lines 82-95), the constructor installed over
`ConvNextLayer.__init__` at line 97.  `act` records the `ACT2FN` key
`config.hidden_act` (line 88); `layer_scale_parameter` is
`config.layer_scale_init_value * ones(dim)` when that value is positive and
`None` otherwise (lines 90-94); `drop_path` becomes `nn.Identity()` unless
`drop_path > 0.0` (line 95). -/
def replace_block_init (cfg : Config) (dim : Nat) (drop_path : ℚ) : ConvNextLayerState :=
  { dwconv_channels := dim
    dwconv_kernel_size := 7
    dwconv_padding := 3
    dwconv_groups := dim
    layernorm_dim := dim
    layernorm_eps := 1 / 1000000
    pwconv1 := SerializedLinear.init dim (4 * dim)
    act := cfg.hidden_act
    pwconv2 := SerializedLinear.init (4 * dim) dim
    layer_scale_parameter :=
      if 0 < cfg.layer_scale_init_value then some cfg.layer_scale_init_value else none
    drop_path_is_identity := !decide (0 < drop_path) }

/-- Observable effects of `extend_hf_convnext_init` (lines 21-30) beyond the
original constructor: whether the classifier weights were scaled (and by
what), and whether foreign weights were loaded (and from where). -/
structure InitEffects where
  classifier_scaled_by : Option ℚ
  loaded_weights_from : Option String
deriving DecidableEq

/-- `extend_hf_convnext_init` (lines 21-30): after the original constructor,
the classifier is scaled by `config.head_init_scale` when that attribute
exists and `config.num_labels > 0` (lines 25-27), and
`load_weights_from_fb_model` runs when `config.pretrained_weights_path`
exists and is truthy (lines 29-30; the empty string is falsy in Python). -/
def extend_hf_convnext_init (cfg : Config) : InitEffects :=
  { classifier_scaled_by :=
      match cfg.head_init_scale with
      | some s => if 0 < cfg.num_labels then some s else none
      | none => none
    loaded_weights_from :=
      match cfg.pretrained_weights_path with
      | some p => if p = "" then none else some p
      | none => none }

/-! ### Sanity checks on concrete inputs -/

example : (forwardLoss ⟨3, none, none, [], 1, none, some (1/10), 1, "gelu", false, 0⟩
    (some DType.long)).1 = some (LossExpr.crossEntropyLoss 0) := by decide

example : (forwardLoss ⟨1, none, none, [], 1, none, none, 1, "gelu", false, 0⟩
    (some DType.float32)).2.problem_type = some "regression" := by decide

example : get_layer_ipu [2, 1, 3] = [0, 0, 1, 2, 2, 2] := by decide

example : ConvNextPipelineMixin.parallelize [2, 1] [["a", "b"], ["c"]] =
    .ok (0, [("a", 0), ("b", 0), ("c", 1)]) := rfl

example : ConvNextPipelineMixin.parallelize [1] [["a", "b"]] =
    .error "IndexError: list index out of range" := rfl

example : load_weights_from_fb_model (fun k => some ("hf." ++ k)) false
    [("stages.0.w", 10), ("head.w", 11)] [("hf.head.w", 5)] =
    .ok [(some "hf.stages.0.w", 10), (some "hf.head.w", 5)] := rfl

example : load_weights_from_fb_model (fun _ => none) false
    [("unmapped.key", 10)] [("hf.x", 5)] = .error "KeyError: None" := rfl

/-! ### Lemmas about loss selection -/

/-- When `problem_type` is already set, `forwardLoss` leaves the configuration
unchanged and the loss depends only on the cached `problem_type` and
`num_labels`. -/
lemma forwardLoss_cached (cfg : Config) (d : DType) (p : String)
    (h : cfg.problem_type = some p) :
    forwardLoss cfg (some d) =
      ((if p = "regression" then some (LossExpr.mseLoss (decide (cfg.num_labels = 1)))
        else if p = "single_label_classification" then some (LossExpr.crossEntropyLoss 0)
        else if p = "multi_label_classification" then some LossExpr.softTargetCE
        else none), cfg) := by
  simp [forwardLoss, h, selfEvalIsTruthy]

/-- When `problem_type` is unset, `forwardLoss` caches the inferred problem
type and selects the loss from the updated configuration. -/
lemma forwardLoss_infer (cfg : Config) (d : DType) (h : cfg.problem_type = none) :
    forwardLoss cfg (some d) =
      forwardLoss { cfg with problem_type := some (inferProblemType cfg.num_labels d) }
        (some d) := by
  by_cases h1 : cfg.num_labels = 1
  · simp [forwardLoss, h, inferProblemType, h1]
  · by_cases h2 : 1 < cfg.num_labels ∧ (d = DType.long ∨ d = DType.int)
    · simp [forwardLoss, h, inferProblemType, h1, h2]
    · simp [forwardLoss, h, inferProblemType, h1, h2]

/-- When `problem_type` is unset, the configuration after `forwardLoss` is
the input configuration with exactly the inferred problem type written into
`problem_type` and nothing else changed. -/
lemma forwardLoss_update (cfg : Config) (d : DType) (h : cfg.problem_type = none) :
    (forwardLoss cfg (some d)).2 =
      { cfg with problem_type := some (inferProblemType cfg.num_labels d) } := by
  rw [forwardLoss_infer cfg d h, forwardLoss_cached _ d _ rfl]

/-- C2: in `PipelinedConvNextForImageClassification.forward`, with labels
present and `problem_type` unset, the selected problem type is a pure function
of `num_labels` and the labels' dtype — `regression` iff `num_labels == 1`,
`single_label_classification` iff `num_labels > 1` and the dtype is
`torch.long` or `torch.int`, and `multi_label_classification` otherwise; a
second forward call with the same inputs selects the same loss and changes
nothing further, and the first call changes no state besides
`config.problem_type`. -/
theorem forwardLoss_selection_pure (cfg : Config) (d : DType)
    (h : cfg.problem_type = none) :
    (forwardLoss cfg (some d)).2.problem_type = some (inferProblemType cfg.num_labels d) ∧
    (inferProblemType cfg.num_labels d = "regression" ↔ cfg.num_labels = 1) ∧
    (inferProblemType cfg.num_labels d = "single_label_classification" ↔
      1 < cfg.num_labels ∧ (d = DType.long ∨ d = DType.int)) ∧
    (inferProblemType cfg.num_labels d = "multi_label_classification" ↔
      ¬cfg.num_labels = 1 ∧ ¬(1 < cfg.num_labels ∧ (d = DType.long ∨ d = DType.int))) ∧
    forwardLoss ((forwardLoss cfg (some d)).2) (some d) = forwardLoss cfg (some d) ∧
    (forwardLoss cfg (some d)).2 =
      { cfg with problem_type := some (inferProblemType cfg.num_labels d) } := by
  by_cases h1 : cfg.num_labels = 1
  · simp [forwardLoss, h, inferProblemType, h1]
  · by_cases h2 : 1 < cfg.num_labels ∧ (d = DType.long ∨ d = DType.int)
    · simp [forwardLoss, h, inferProblemType, h1, h2]
    · simp [forwardLoss, h, inferProblemType, h1, h2]

/-- Witness for C2 at a concrete input: three labels with `torch.long` dtype
and an unset problem type. -/
theorem forwardLoss_selection_pure_witness :
    (⟨3, none, none, [], 1, none, none, 1, "gelu", false, 0⟩ : Config).problem_type = none ∧
    (forwardLoss ⟨3, none, none, [], 1, none, none, 1, "gelu", false, 0⟩
        (some DType.long)).2.problem_type =
      some (inferProblemType 3 DType.long) :=
  ⟨rfl, (forwardLoss_selection_pure ⟨3, none, none, [], 1, none, none, 1, "gelu", false, 0⟩
    DType.long rfl).1⟩

/-- C5: loss computation branches on `problem_type` among the three values,
delegating to `MSELoss` (applied to squeezed logits and labels exactly when
`num_labels == 1`), `CrossEntropyLoss` over reshaped logits and flattened
labels, and a soft-target cross-entropy; any other `problem_type` produces no
loss. -/
theorem forwardLoss_branching (cfg : Config) (d : DType) (p : String)
    (h : cfg.problem_type = some p) :
    (p = "regression" →
      (forwardLoss cfg (some d)).1 = some (LossExpr.mseLoss (decide (cfg.num_labels = 1)))) ∧
    (p = "single_label_classification" →
      (forwardLoss cfg (some d)).1 = some (LossExpr.crossEntropyLoss 0)) ∧
    (p = "multi_label_classification" →
      (forwardLoss cfg (some d)).1 = some LossExpr.softTargetCE) ∧
    (p ≠ "regression" → p ≠ "single_label_classification" →
      p ≠ "multi_label_classification" → (forwardLoss cfg (some d)).1 = none) := by
  rw [forwardLoss_cached cfg d p h]
  refine ⟨fun hp => ?_, fun hp => ?_, fun hp => ?_, fun hp1 hp2 hp3 => ?_⟩
  · simp [hp]
  · simp [hp]
  · simp [hp]
  · simp [hp1, hp2, hp3]

/-- Witness for C5 at a concrete input: each of the four branch hypotheses is
dischargeable; here the `regression` branch with one label. -/
theorem forwardLoss_branching_witness :
    (⟨1, none, none, [], 1, some "regression", none, 1, "gelu", false, 0⟩ : Config).problem_type
      = some "regression" ∧
    (forwardLoss ⟨1, none, none, [], 1, some "regression", none, 1, "gelu", false, 0⟩
        (some DType.float32)).1 =
      some (LossExpr.mseLoss (decide ((1 : Nat) = 1))) :=
  ⟨rfl, (forwardLoss_branching ⟨1, none, none, [], 1, some "regression", none, 1, "gelu", false, 0⟩
    DType.float32 "regression" rfl).1 rfl⟩

/-- C9: the configured label-smoothing factor never reaches the computed loss:
because the guard `if self.eval:` tests the bound method `nn.Module.eval`,
which is always truthy, the single-label branch always replaces the smoothed
loss with plain `CrossEntropyLoss()`; so the selected cross-entropy has
smoothing `0` for every value of `config.smoothing`. -/
theorem smoothing_never_affects_loss (cfg : Config) (d : DType)
    (h : cfg.problem_type = some "single_label_classification") :
    (forwardLoss cfg (some d)).1 = some (LossExpr.crossEntropyLoss 0) ∧
    ∀ s : ℚ, (forwardLoss { cfg with smoothing := some s } (some d)).1 =
      some (LossExpr.crossEntropyLoss 0) := by
  refine ⟨?_, fun s => ?_⟩
  · rw [forwardLoss_cached cfg d _ h]; simp
  · rw [forwardLoss_cached { cfg with smoothing := some s } d "single_label_classification" h]
    simp

/-- Witness for C9 at a concrete input. -/
theorem smoothing_never_affects_loss_witness :
    (⟨5, none, none, [], 1, some "single_label_classification", some (1/10), 1, "gelu", false, 0⟩ :
      Config).problem_type = some "single_label_classification" ∧
    (forwardLoss
        ⟨5, none, none, [], 1, some "single_label_classification", some (1/10), 1, "gelu", false, 0⟩
        (some DType.long)).1 = some (LossExpr.crossEntropyLoss 0) :=
  ⟨rfl, (smoothing_never_affects_loss
    ⟨5, none, none, [], 1, some "single_label_classification", some (1/10), 1, "gelu", false, 0⟩
    DType.long rfl).1⟩

/-- C10: the first forward call with labels while `problem_type` is `None`
writes the inferred problem type into the configuration, and the assignment
persists: every later call with labels leaves the configuration unchanged and
selects the loss from the cached problem type, ignoring the new labels'
dtype. -/
theorem problem_type_cached_once (cfg : Config) (d : DType)
    (h : cfg.problem_type = none) :
    (forwardLoss cfg (some d)).2.problem_type = some (inferProblemType cfg.num_labels d) ∧
    ∀ d2 : DType,
      (forwardLoss ((forwardLoss cfg (some d)).2) (some d2)).2 = (forwardLoss cfg (some d)).2 ∧
      (forwardLoss ((forwardLoss cfg (some d)).2) (some d2)).1 =
        (forwardLoss ((forwardLoss cfg (some d)).2) (some d)).1 := by
  have h2 := forwardLoss_update cfg d h
  refine ⟨by rw [h2], fun d2 => ?_⟩
  rw [h2, forwardLoss_cached _ d2 (inferProblemType cfg.num_labels d) rfl,
    forwardLoss_cached _ d (inferProblemType cfg.num_labels d) rfl]
  exact ⟨rfl, rfl⟩

/-- Witness for C10 at a concrete input: float labels with four classes, so
the multi-label branch is cached. -/
theorem problem_type_cached_once_witness :
    (⟨4, none, none, [], 1, none, none, 1, "gelu", false, 0⟩ : Config).problem_type = none ∧
    (forwardLoss ⟨4, none, none, [], 1, none, none, 1, "gelu", false, 0⟩
        (some DType.float32)).2.problem_type =
      some (inferProblemType 4 DType.float32) :=
  ⟨rfl, (problem_type_cached_once ⟨4, none, none, [], 1, none, none, 1, "gelu", false, 0⟩
    DType.float32 rfl).1⟩

/-- C8: for every input, weight and bias, `SerializedLinear.forward` computes
the same mathematical function as the standard linear layer it replaces
(input times transposed weight, plus bias), whatever the serialization mode;
and the mode recorded at construction is `ReducingDim` exactly when
`in_features > 2000` or `out_features > 2000`, `Disabled` otherwise. -/
theorem serializedLinear_refines_linear :
    (∀ (m i o : Nat) (st : SerializedLinearState) (weight : Matrix (Fin o) (Fin i) ℚ)
      (bias : Fin o → ℚ) (input : Matrix (Fin m) (Fin i) ℚ),
      SerializedLinear.forward st weight bias input = linearLayerSpec weight bias input) ∧
    (∀ in_features out_features : Nat,
      ((SerializedLinear.init in_features out_features).ser_mode =
          MatMulSerializationMode.ReducingDim ↔
        2000 < in_features ∨ 2000 < out_features) ∧
      ((SerializedLinear.init in_features out_features).ser_mode =
          MatMulSerializationMode.Disabled ↔
        ¬(2000 < in_features ∨ 2000 < out_features))) := by
  constructor
  · intro m i o st weight bias input
    ext r c
    simp [SerializedLinear.forward, linearLayerSpec, serializedMatMul, Matrix.mul_apply,
      Matrix.transpose_apply]
  · intro in_features out_features
    by_cases h : 2000 < in_features ∨ 2000 < out_features <;>
      simp [SerializedLinear.init, h]

/-! ### Lemmas about the device-assignment loops -/

/-- Every unit index produced by `get_layer_ipu_from` lies between the
starting counter and the counter plus the table length. -/
lemma get_layer_ipu_from_mem {x : Nat} :
    ∀ (t : List Nat) (i : Nat), x ∈ get_layer_ipu_from i t → i ≤ x ∧ x < i + t.length := by
  intro t
  induction t with
  | nil => intro i h; simp [get_layer_ipu_from] at h
  | cons n rest ih =>
    intro i h
    rw [get_layer_ipu_from, List.mem_append] at h
    rcases h with h | h
    · rcases List.eq_of_mem_replicate h with rfl
      simp only [List.length_cons]
      omega
    · obtain ⟨h1, h2⟩ := ih (i + 1) h
      simp only [List.length_cons]
      omega

/-- Every unit index in the expanded table is a valid position of the
per-unit layer count table. -/
lemma get_layer_ipu_mem {x : Nat} {t : List Nat} (h : x ∈ get_layer_ipu t) :
    x < t.length := by
  have := get_layer_ipu_from_mem t 0 h
  omega

/-- Closed form of the inner tagging loop when the table is long enough: the
layers are zipped with the corresponding slice of the table, and the global
index advances by the number of layers. -/
lemma assignLayers_ok (table : List Nat) (l : List α) (idx : Nat)
    (h : idx + l.length ≤ table.length) :
    assignLayers table l idx =
      .ok (l.zip ((table.drop idx).take l.length), idx + l.length) := by
  induction l generalizing idx with
  | nil => simp [assignLayers]
  | cons a l ih =>
    have hidx : idx < table.length := by
      simp only [List.length_cons] at h
      omega
    have hrec := ih (idx + 1) (by simp only [List.length_cons] at h; omega)
    rw [assignLayers, List.getElem?_eq_getElem hidx]
    simp only [hrec, List.drop_eq_getElem_cons hidx, List.length_cons, List.take_succ_cons,
      List.zip_cons_cons]
    have : idx + 1 + l.length = idx + (l.length + 1) := by omega
    rw [this]

/-- The inner tagging loop hits `IndexError` when the table is too short for a
non-empty layer list. -/
lemma assignLayers_err (table : List Nat) (l : List α) (idx : Nat)
    (h : table.length < idx + l.length) (hne : l ≠ []) :
    assignLayers table l idx = .error "IndexError: list index out of range" := by
  induction l generalizing idx with
  | nil => exact absurd rfl hne
  | cons a l ih =>
    by_cases hidx : idx < table.length
    · rw [assignLayers, List.getElem?_eq_getElem hidx]
      cases l with
      | nil =>
        exfalso
        simp only [List.length_cons, List.length_nil] at h
        omega
      | cons b l2 =>
        have hrec := ih (idx + 1)
          (by simp only [List.length_cons] at h ⊢; omega) (by simp)
        simp [hrec]
    · rw [assignLayers, List.getElem?_eq_none (by omega)]

/-- Closed form of the stage loop: walking the stages in order with a running
global index is the linear assignment over the flattened layer list. -/
lemma assignStages_ok (table : List Nat) (stages : List (List α)) (idx : Nat)
    (h : idx + stages.flatten.length ≤ table.length) :
    assignStages table stages idx =
      .ok (stages.flatten.zip ((table.drop idx).take stages.flatten.length),
        idx + stages.flatten.length) := by
  induction stages generalizing idx with
  | nil => simp [assignStages]
  | cons s ss ih =>
    have hlen : idx + s.length ≤ table.length := by
      simp only [List.flatten_cons, List.length_append] at h
      omega
    have hrec := ih (idx + s.length)
      (by simp only [List.flatten_cons, List.length_append] at h; omega)
    rw [assignStages, assignLayers_ok table s idx hlen]
    simp only [hrec]
    have htk : s.length = ((table.drop idx).take s.length).length := by
      rw [List.length_take, List.length_drop, Nat.min_eq_left (by omega)]
    simp only [List.flatten_cons, List.length_append, List.take_add, List.drop_drop,
      List.zip_append htk, Nat.add_assoc]

/-- The stage loop hits `IndexError` when the table is shorter than the total
number of layers. -/
lemma assignStages_err (table : List Nat) (stages : List (List α)) (idx : Nat)
    (h : table.length < idx + stages.flatten.length) (hidx : idx ≤ table.length) :
    assignStages table stages idx = .error "IndexError: list index out of range" := by
  induction stages generalizing idx with
  | nil =>
    exfalso
    simp only [List.flatten_nil, List.length_nil] at h
    omega
  | cons s ss ih =>
    by_cases h1 : idx + s.length ≤ table.length
    · rw [assignStages, assignLayers_ok table s idx h1]
      have hrec := ih (idx + s.length)
        (by simp only [List.flatten_cons, List.length_append] at h; omega) h1
      simp [hrec]
    · cases s with
      | nil =>
        exfalso
        simp only [List.length_nil] at h1
        omega
      | cons a s2 =>
        rw [assignStages, assignLayers_err table (a :: s2) idx (by omega) (by simp)]

/-- Inversion of a successful `ConvNextPipelineMixin.parallelize`: the
embeddings unit is 0, the table covers all layers, and the encoder assignment
is the flattened layer list zipped with the table. -/
lemma mixin_parallelize_ok (t : List Nat) (stages : List (List α)) (emb : Nat)
    (enc : List (α × Nat))
    (hok : ConvNextPipelineMixin.parallelize t stages = .ok (emb, enc)) :
    emb = 0 ∧ stages.flatten.length ≤ (get_layer_ipu t).length ∧
    assignStages (get_layer_ipu t) stages 0 = .ok (enc, stages.flatten.length) ∧
    enc = stages.flatten.zip ((get_layer_ipu t).take stages.flatten.length) := by
  by_cases hlen : stages.flatten.length ≤ (get_layer_ipu t).length
  · have hs := assignStages_ok (get_layer_ipu t) stages 0 (by omega)
    rw [ConvNextPipelineMixin.parallelize] at hok
    simp only [hs, List.drop_zero, Nat.zero_add, Except.ok.injEq, Prod.mk.injEq] at hok
    obtain ⟨h1, h2⟩ := hok
    refine ⟨h1.symm, hlen, ?_, h2.symm⟩
    rw [hs]
    simp only [List.drop_zero, Nat.zero_add, h2]
  · have hs := assignStages_err (get_layer_ipu t) stages 0 (by omega) (by omega)
    rw [ConvNextPipelineMixin.parallelize] at hok
    simp [hs] at hok

/-- C4: the device-placement annotator walks the stages in order and the
layers within each stage in order; a successful run tags the k-th layer
overall with entry k of the precomputed table `get_layer_ipu`, the global
index growing by exactly one per layer — the result is literally the flattened
layer list zipped with the table, with the final global index equal to the
total number of layers. -/
theorem parallelize_linear_assignment (t : List Nat) (stages : List (List α)) (emb : Nat)
    (enc : List (α × Nat))
    (hok : ConvNextPipelineMixin.parallelize t stages = .ok (emb, enc)) :
    enc = stages.flatten.zip ((get_layer_ipu t).take stages.flatten.length) ∧
    assignStages (get_layer_ipu t) stages 0 = .ok (enc, stages.flatten.length) ∧
    enc.map Prod.fst = stages.flatten ∧
    (∀ k, k < enc.length → (enc.map Prod.snd)[k]? = (get_layer_ipu t)[k]?) := by
  obtain ⟨-, hlen, hs, hzip⟩ := mixin_parallelize_ok t stages emb enc hok
  have htake : ((get_layer_ipu t).take stages.flatten.length).length =
      stages.flatten.length := by
    rw [List.length_take, Nat.min_eq_left hlen]
  refine ⟨hzip, hs, ?_, ?_⟩
  · rw [hzip, List.map_fst_zip]
    omega
  · intro k hk
    have hsnd : enc.map Prod.snd = (get_layer_ipu t).take stages.flatten.length := by
      rw [hzip, List.map_snd_zip]
      omega
    have hk2 : k < stages.flatten.length := by
      rw [hzip, List.length_zip] at hk
      omega
    rw [hsnd, List.getElem?_take, if_pos hk2]

/-- Witness for C4 at a concrete input: table `[2, 1]` and three layers in
two stages. -/
theorem parallelize_linear_assignment_witness :
    [((), 0), ((), 0), ((), 1)] =
      ([[()], [(), ()]] : List (List Unit)).flatten.zip
        ((get_layer_ipu [2, 1]).take ([[()], [(), ()]] : List (List Unit)).flatten.length) :=
  (parallelize_linear_assignment [2, 1] [[()], [(), ()]] 0 [((), 0), ((), 0), ((), 1)] rfl).1

/-- C3: device-index assignment never exceeds the configured number of units:
when the per-unit layer count table has one entry per unit, every encoder
layer's `ipu_id` is at most `ipus_per_replica - 1`, the embeddings are on unit
0, and the head (layernorm and classifier) is on unit
`ipus_per_replica - 1`. -/
theorem parallelize_ipu_within_bounds (cfg : Config) (stages : List (List α))
    (alloc : PipelineAllocation α)
    (hlen : cfg.layers_per_ipu.length = cfg.ipus_per_replica)
    (hok : PipelinedConvNextForImageClassification.parallelize cfg stages = .ok alloc) :
    alloc.embeddings_ipu = 0 ∧
    (∀ p ∈ alloc.encoder, (p.2 : Int) ≤ (cfg.ipus_per_replica : Int) - 1) ∧
    alloc.layernorm_ipu = (cfg.ipus_per_replica : Int) - 1 ∧
    alloc.classifier_ipu = (cfg.ipus_per_replica : Int) - 1 := by
  cases hm : ConvNextPipelineMixin.parallelize cfg.layers_per_ipu stages with
  | error e =>
    rw [PipelinedConvNextForImageClassification.parallelize] at hok
    simp [hm] at hok
  | ok pr =>
    obtain ⟨emb, enc⟩ := pr
    rw [PipelinedConvNextForImageClassification.parallelize] at hok
    simp only [hm, Except.ok.injEq] at hok
    obtain ⟨hemb, hlen2, -, hzip⟩ := mixin_parallelize_ok _ stages emb enc hm
    subst hok
    refine ⟨hemb, ?_, rfl, rfl⟩
    intro p hp
    rw [hzip] at hp
    have hmem : p.2 ∈ (get_layer_ipu cfg.layers_per_ipu).take stages.flatten.length := by
      obtain ⟨a, b⟩ := p
      exact (List.of_mem_zip hp).2
    have hmem2 : p.2 ∈ get_layer_ipu cfg.layers_per_ipu := List.take_subset _ _ hmem
    have hbound := get_layer_ipu_mem hmem2
    omega

/-- Witness for C3 at a concrete input: two units with layer counts `[2, 1]`
and three layers. -/
theorem parallelize_ipu_within_bounds_witness :
    (PipelineAllocation.mk 0 [((), 0), ((), 0), ((), 1)] 1 1 : PipelineAllocation Unit).embeddings_ipu
      = 0 :=
  (parallelize_ipu_within_bounds ⟨1000, none, none, [2, 1], 2, none, none, 1, "gelu", false, 0⟩
    [[()], [(), ()]] (PipelineAllocation.mk 0 [((), 0), ((), 0), ((), 1)] 1 1) rfl rfl).1

/-- C6: this module defines no failure handling of its own: an out-of-range
global layer index in `parallelize` (both the mixin loop and the full model
method) surfaces the underlying `IndexError` unchanged, and a checkpoint key
with no name mapping makes `load_weights_from_fb_model` surface the
`KeyError` raised by indexing the current state dictionary with `None` —
nothing is caught, transformed or recovered. -/
theorem errors_propagate_unhandled :
    (∀ (t : List Nat) (stages : List (List Unit)),
      (get_layer_ipu t).length < stages.flatten.length →
      ConvNextPipelineMixin.parallelize t stages =
        .error "IndexError: list index out of range") ∧
    (∀ (fb_to_hf : String → Option String) (k : String) (v : Nat)
      (rest : List (String × Nat)) (cur : List (String × Nat)),
      fb_to_hf k = none →
      load_weights_from_fb_model fb_to_hf false ((k, v) :: rest) cur =
        .error "KeyError: None") ∧
    (∀ (cfg : Config) (stages : List (List Unit)),
      (get_layer_ipu cfg.layers_per_ipu).length < stages.flatten.length →
      PipelinedConvNextForImageClassification.parallelize cfg stages =
        .error "IndexError: list index out of range") := by
  have hmix : ∀ (t : List Nat) (stages : List (List Unit)),
      (get_layer_ipu t).length < stages.flatten.length →
      ConvNextPipelineMixin.parallelize t stages =
        .error "IndexError: list index out of range" := by
    intro t stages hlt
    have herr := assignStages_err (get_layer_ipu t) stages 0 (by omega) (by omega)
    rw [ConvNextPipelineMixin.parallelize]
    simp [herr]
  refine ⟨hmix, ?_, ?_⟩
  · intro fb_to_hf k v rest cur hm
    rw [load_weights_from_fb_model, load_weights_loop]
    simp [hm, pyLookup]
  · intro cfg stages hlt
    rw [PipelinedConvNextForImageClassification.parallelize]
    simp [hmix cfg.layers_per_ipu stages hlt]

/-- Witness for C6 at concrete inputs: a one-entry table with two layers, and
an unmapped checkpoint key. -/
theorem errors_propagate_unhandled_witness :
    ConvNextPipelineMixin.parallelize [1] [[(), ()]] =
      .error "IndexError: list index out of range" ∧
    load_weights_from_fb_model (fun _ => none) false [("backbone.w", 0)]
      ([] : List (String × Nat)) = .error "KeyError: None" ∧
    PipelinedConvNextForImageClassification.parallelize
      ⟨2, none, none, [1], 1, none, none, 1, "gelu", false, 0⟩ [[(), ()]] =
      .error "IndexError: list index out of range" :=
  ⟨errors_propagate_unhandled.1 [1] [[(), ()]] (by decide),
    errors_propagate_unhandled.2.1 (fun _ => none) "backbone.w" 0 [] [] rfl,
    errors_propagate_unhandled.2.2 ⟨2, none, none, [1], 1, none, none, 1, "gelu", false, 0⟩
      [[(), ()]] (by decide)⟩

/-! ### Lemmas about the checkpoint translator -/

/-- An entry of `dictSet d k v` is either the new binding or an entry of
`d`. -/
lemma mem_dictSet {d : List (Option String × α)} {k : Option String} {v : α}
    {q : Option String × α} (h : q ∈ dictSet d k v) : q = (k, v) ∨ q ∈ d := by
  unfold dictSet at h
  by_cases hc : d.any (fun p => p.1 == k)
  · rw [if_pos hc] at h
    obtain ⟨p, hp, hq⟩ := List.mem_map.mp h
    by_cases hpk : (p.1 == k) = true
    · rw [if_pos hpk] at hq
      exact Or.inl hq.symm
    · rw [if_neg hpk] at hq
      exact Or.inr (hq ▸ hp)
  · rw [if_neg hc] at h
    rcases List.mem_append.mp h with h1 | h1
    · exact Or.inr h1
    · exact Or.inl (List.mem_singleton.mp h1)

/-- Boolean identity relating the source's branch guard
`not head or load_classifier` to the exclusion condition
`head and not load_classifier`. -/
lemma guard_eq_not_excluded (a b : Bool) : (!a || b) = !(a && !b) := by
  cases a <;> cases b <;> rfl

/-- Invariant of the `load_weights_from_fb_model` loop: when every remaining
checkpoint key has a mapping, and the current state dict covers the mapped
name of every excluded ("head") key, the loop succeeds and each produced entry
either was already accumulated or comes from a checkpoint key — carrying the
checkpoint value for an included key, and the current (fallback) value for an
excluded key. -/
lemma load_weights_loop_entries (m : String → Option String) (lc : Bool)
    (cur : List (String × α)) :
    ∀ (fb : List (String × α)) (acc : List (Option String × α)),
    (∀ p ∈ fb, (m p.1).isSome) →
    (∀ p ∈ fb, (strContains p.1 "head" && !lc) = true →
      ∃ w, pyLookup cur (m p.1) = .ok w) →
    ∃ d, load_weights_loop m lc cur fb acc = .ok d ∧
      ∀ q ∈ d, q ∈ acc ∨ ∃ p, p ∈ fb ∧ m p.1 = q.1 ∧
        (((strContains p.1 "head" && !lc) = false ∧ q.2 = p.2) ∨
         ((strContains p.1 "head" && !lc) = true ∧ pyLookup cur q.1 = .ok q.2)) := by
  intro fb
  induction fb with
  | nil =>
    intro acc _ _
    exact ⟨acc, rfl, fun q hq => Or.inl hq⟩
  | cons p rest ih =>
    obtain ⟨k, v⟩ := p
    intro acc hcov hcur
    have hk : (m k).isSome = true := hcov (k, v) (List.mem_cons_self _ _)
    have hcov2 : ∀ p ∈ rest, (m p.1).isSome := fun p hp =>
      hcov p (List.mem_cons_of_mem _ hp)
    have hcur2 : ∀ p ∈ rest, (strContains p.1 "head" && !lc) = true →
        ∃ w, pyLookup cur (m p.1) = .ok w := fun p hp =>
      hcur p (List.mem_cons_of_mem _ hp)
    cases hcond : (strContains k "head" && !lc) with
    | false =>
      obtain ⟨d, hd, hq⟩ := ih (dictSet acc (m k) v) hcov2 hcur2
      refine ⟨d, ?_, ?_⟩
      · rw [load_weights_loop, guard_eq_not_excluded, hcond, if_pos (by rw [hk]; rfl)]
        exact hd
      · intro q hqd
        rcases hq q hqd with hacc | ⟨p2, hp2, hrest⟩
        · rcases mem_dictSet hacc with rfl | hacc2
          · exact Or.inr ⟨(k, v), List.mem_cons_self _ _, rfl, Or.inl ⟨hcond, rfl⟩⟩
          · exact Or.inl hacc2
        · exact Or.inr ⟨p2, List.mem_cons_of_mem _ hp2, hrest⟩
    | true =>
      obtain ⟨w, hw⟩ := hcur (k, v) (List.mem_cons_self _ _) hcond
      obtain ⟨d, hd, hq⟩ := ih (dictSet acc (m k) w) hcov2 hcur2
      refine ⟨d, ?_, ?_⟩
      · rw [load_weights_loop, guard_eq_not_excluded, hcond,
          if_neg (by simp), hw]
        exact hd
      · intro q hqd
        rcases hq q hqd with hacc | ⟨p2, hp2, hrest⟩
        · rcases mem_dictSet hacc with rfl | hacc2
          · exact Or.inr ⟨(k, v), List.mem_cons_self _ _, rfl, Or.inr ⟨hcond, hw⟩⟩
          · exact Or.inl hacc2
        · exact Or.inr ⟨p2, List.mem_cons_of_mem _ hp2, hrest⟩

/-- C1 counterexample: on a checkpoint key for which the name map finds no
mapping, the translator does not fall back to the current value — the else
branch indexes `current_state_dict` with `hf_tensor_name`, which is `None`,
and the call fails with `KeyError` instead of succeeding. -/
theorem load_weights_uncovered_key_raises :
    load_weights_from_fb_model (fun _ => none) false [("norm.weight", (0 : Nat))]
      [("convnext.layernorm.weight", 0)] = .error "KeyError: None" := rfl

/-- C1 amended: the translation is total over the checkpoint keys the name
map covers.  When `fb_to_hf_name` finds a mapping for every checkpoint key and
the model's current state dict contains the mapped name of every excluded
("head", with `load_classifier` false) key, `load_weights_from_fb_model`
succeeds; every produced entry takes the checkpoint value for an included key,
and falls back to the model's existing current value for an excluded key.  (A
key with no mapping instead raises `KeyError: None`, as the counterexample
shows.) -/
theorem load_weights_covered_total (m : String → Option String) (lc : Bool)
    (fb cur : List (String × α))
    (hcov : ∀ p ∈ fb, (m p.1).isSome)
    (hcur : ∀ p ∈ fb, (strContains p.1 "head" && !lc) = true →
      ∃ w, pyLookup cur (m p.1) = .ok w) :
    ∃ d, load_weights_from_fb_model m lc fb cur = .ok d ∧
      ∀ q ∈ d, ∃ p, p ∈ fb ∧ m p.1 = q.1 ∧
        (((strContains p.1 "head" && !lc) = false ∧ q.2 = p.2) ∨
         ((strContains p.1 "head" && !lc) = true ∧ pyLookup cur q.1 = .ok q.2)) := by
  obtain ⟨d, hd, hq⟩ := load_weights_loop_entries m lc cur fb [] hcov hcur
  exact ⟨d, hd, fun q hqd => (hq q hqd).resolve_left (List.not_mem_nil q)⟩

/-- Witness for the amended C1 at a concrete input: a fully covered checkpoint
with one regular key and one excluded "head" key whose mapped name exists in
the model. -/
theorem load_weights_covered_total_witness :
    ∃ d, load_weights_from_fb_model (fun k => some ("convnext." ++ k)) false
      [("stages.w", (10 : Nat)), ("head.w", 11)] [("convnext.head.w", 5)] = .ok d ∧
      ∀ q ∈ d, ∃ p, p ∈ [("stages.w", (10 : Nat)), ("head.w", 11)] ∧
        (fun k => some ("convnext." ++ k)) p.1 = q.1 ∧
        (((strContains p.1 "head" && !false) = false ∧ q.2 = p.2) ∨
         ((strContains p.1 "head" && !false) = true ∧
          pyLookup [("convnext.head.w", 5)] q.1 = .ok q.2)) :=
  load_weights_covered_total (fun k => some ("convnext." ++ k)) false
    [("stages.w", 10), ("head.w", 11)] [("convnext.head.w", 5)]
    (by intro p hp; rcases List.mem_cons.mp hp with rfl | hp2
        · rfl
        · rcases List.mem_cons.mp hp2 with rfl | hp3
          · rfl
          · exact absurd hp3 (List.not_mem_nil p))
    (by intro p hp hh; rcases List.mem_cons.mp hp with rfl | hp2
        · exact absurd hh (by decide)
        · rcases List.mem_cons.mp hp2 with rfl | hp3
          · exact ⟨5, rfl⟩
          · exact absurd hp3 (List.not_mem_nil p))

/-! ### Configuration dependence -/

/-- The observable outcome of `forwardLoss` depends only on the `num_labels`,
`problem_type` and `smoothing` configuration fields. -/
lemma forwardLoss_depends_on_fields (c1 c2 : Config)
    (hn : c1.num_labels = c2.num_labels)
    (hpt : c1.problem_type = c2.problem_type)
    (_hsm : c1.smoothing = c2.smoothing) (labels : Option DType) :
    (forwardLoss c1 labels).1 = (forwardLoss c2 labels).1 ∧
    (forwardLoss c1 labels).2.problem_type = (forwardLoss c2 labels).2.problem_type := by
  cases labels with
  | none => exact ⟨rfl, hpt⟩
  | some d =>
    cases hp : c1.problem_type with
    | some p =>
      have hp2 : c2.problem_type = some p := by rw [← hpt]; exact hp
      rw [forwardLoss_cached c1 d p hp, forwardLoss_cached c2 d p hp2]
      exact ⟨by rw [hn], by simp [hp, hp2]⟩
    | none =>
      have hp2 : c2.problem_type = none := by rw [← hpt]; exact hp
      rw [forwardLoss_infer c1 d hp, forwardLoss_infer c2 d hp2,
        forwardLoss_cached _ d _ rfl, forwardLoss_cached _ d _ rfl]
      exact ⟨by simp [hn], by simp [hn]⟩

/-- C7 counterexample: the module does not read exactly the eight listed
configuration fields.  These two configurations agree on all eight —
`num_labels`, `head_init_scale`, `pretrained_weights_path`, `layers_per_ipu`,
`ipus_per_replica`, `problem_type`, `smoothing`, `layer_scale_init_value` —
yet the block constructor behaves differently, because `replace_block_init`
also reads `config.hidden_act` (source line 88). -/
theorem config_fields_not_exactly_eight :
    ((⟨10, some 1, some "w.pth", [2, 1], 2, none, some (1/10), 1/100, "gelu", false, 0⟩ :
        Config).num_labels =
      (⟨10, some 1, some "w.pth", [2, 1], 2, none, some (1/10), 1/100, "relu", false, 0⟩ :
        Config).num_labels ∧
     (⟨10, some 1, some "w.pth", [2, 1], 2, none, some (1/10), 1/100, "gelu", false, 0⟩ :
        Config).head_init_scale =
      (⟨10, some 1, some "w.pth", [2, 1], 2, none, some (1/10), 1/100, "relu", false, 0⟩ :
        Config).head_init_scale ∧
     (⟨10, some 1, some "w.pth", [2, 1], 2, none, some (1/10), 1/100, "gelu", false, 0⟩ :
        Config).pretrained_weights_path =
      (⟨10, some 1, some "w.pth", [2, 1], 2, none, some (1/10), 1/100, "relu", false, 0⟩ :
        Config).pretrained_weights_path ∧
     (⟨10, some 1, some "w.pth", [2, 1], 2, none, some (1/10), 1/100, "gelu", false, 0⟩ :
        Config).layers_per_ipu =
      (⟨10, some 1, some "w.pth", [2, 1], 2, none, some (1/10), 1/100, "relu", false, 0⟩ :
        Config).layers_per_ipu ∧
     (⟨10, some 1, some "w.pth", [2, 1], 2, none, some (1/10), 1/100, "gelu", false, 0⟩ :
        Config).ipus_per_replica =
      (⟨10, some 1, some "w.pth", [2, 1], 2, none, some (1/10), 1/100, "relu", false, 0⟩ :
        Config).ipus_per_replica ∧
     (⟨10, some 1, some "w.pth", [2, 1], 2, none, some (1/10), 1/100, "gelu", false, 0⟩ :
        Config).problem_type =
      (⟨10, some 1, some "w.pth", [2, 1], 2, none, some (1/10), 1/100, "relu", false, 0⟩ :
        Config).problem_type ∧
     (⟨10, some 1, some "w.pth", [2, 1], 2, none, some (1/10), 1/100, "gelu", false, 0⟩ :
        Config).smoothing =
      (⟨10, some 1, some "w.pth", [2, 1], 2, none, some (1/10), 1/100, "relu", false, 0⟩ :
        Config).smoothing ∧
     (⟨10, some 1, some "w.pth", [2, 1], 2, none, some (1/10), 1/100, "gelu", false, 0⟩ :
        Config).layer_scale_init_value =
      (⟨10, some 1, some "w.pth", [2, 1], 2, none, some (1/10), 1/100, "relu", false, 0⟩ :
        Config).layer_scale_init_value) ∧
    replace_block_init
        ⟨10, some 1, some "w.pth", [2, 1], 2, none, some (1/10), 1/100, "gelu", false, 0⟩ 96 0 ≠
      replace_block_init
        ⟨10, some 1, some "w.pth", [2, 1], 2, none, some (1/10), 1/100, "relu", false, 0⟩ 96 0 := by
  refine ⟨⟨rfl, rfl, rfl, rfl, rfl, rfl, rfl, rfl⟩, ?_⟩
  intro h
  have : ("gelu" : String) = "relu" := congrArg ConvNextLayerState.act h
  exact absurd this (by decide)

/-- C7 amended: the configuration fields consumed by this module are the
eight listed plus `hidden_act` (read by the block constructor, line 88) and
`use_return_dict` (read by `forward` when its `return_dict` argument is
`None`, line 149): two configurations agreeing on these ten fields give the
same initialization, block construction, parallelization, loss selection and
`return_dict` resolution. -/
theorem config_fields_consumed_ten (c1 c2 : Config)
    (h1 : c1.num_labels = c2.num_labels)
    (h2 : c1.head_init_scale = c2.head_init_scale)
    (h3 : c1.pretrained_weights_path = c2.pretrained_weights_path)
    (h4 : c1.layers_per_ipu = c2.layers_per_ipu)
    (h5 : c1.ipus_per_replica = c2.ipus_per_replica)
    (h6 : c1.problem_type = c2.problem_type)
    (h7 : c1.smoothing = c2.smoothing)
    (h8 : c1.layer_scale_init_value = c2.layer_scale_init_value)
    (h9 : c1.hidden_act = c2.hidden_act)
    (h10 : c1.use_return_dict = c2.use_return_dict) :
    extend_hf_convnext_init c1 = extend_hf_convnext_init c2 ∧
    (∀ dim dp, replace_block_init c1 dim dp = replace_block_init c2 dim dp) ∧
    (∀ stages : List (List Unit),
      PipelinedConvNextForImageClassification.parallelize c1 stages =
        PipelinedConvNextForImageClassification.parallelize c2 stages) ∧
    (∀ labels, (forwardLoss c1 labels).1 = (forwardLoss c2 labels).1 ∧
      (forwardLoss c1 labels).2.problem_type = (forwardLoss c2 labels).2.problem_type) ∧
    (∀ rd, resolveReturnDict c1 rd = resolveReturnDict c2 rd) := by
  refine ⟨?_, ?_, ?_, fun labels => forwardLoss_depends_on_fields c1 c2 h1 h6 h7 labels,
    fun rd => ?_⟩
  · unfold extend_hf_convnext_init
    rw [h1, h2, h3]
  · intro dim dp
    unfold replace_block_init
    rw [h8, h9]
  · intro stages
    unfold PipelinedConvNextForImageClassification.parallelize
    rw [h4, h5]
  · unfold resolveReturnDict
    rw [h10]

/-- Witness for the amended C7 at concrete inputs: two configurations that
agree on the ten consumed fields but differ on an unread field behave
identically in initialization. -/
theorem config_fields_consumed_ten_witness :
    extend_hf_convnext_init ⟨3, some 2, some "w.pth", [1], 1, none, none, 1, "gelu", true, 0⟩ =
      extend_hf_convnext_init
        ⟨3, some 2, some "w.pth", [1], 1, none, none, 1, "gelu", true, 99⟩ :=
  (config_fields_consumed_ten
    ⟨3, some 2, some "w.pth", [1], 1, none, none, 1, "gelu", true, 0⟩
    ⟨3, some 2, some "w.pth", [1], 1, none, none, 1, "gelu", true, 99⟩
    rfl rfl rfl rfl rfl rfl rfl rfl rfl rfl).1
